import Mathlib

/-!
Verification of the main loop of `an.py` (webcam animal detection with
cooldown-gated HTTP uploads).

Times are modelled as rationals, standing for the real-valued seconds
returned by `time()`.  Each loop iteration is modelled by an `IterInput`
(the environment of that iteration: the wall-clock time, the detections the
model returned for the frame, whether the blocking calls raise, which key is
pending) and produces either a logged `IterLog` record or an early loop
exit.  Exceptions are modelled explicitly: `cv2.imwrite` (line 72) sits
outside the inner `try`, the `open`/`requests.post` pair (lines 75-76) sits
inside it, and the whole loop sits in a
`try ... except KeyboardInterrupt ... finally` block (lines 41-95).
-/

/-- The allow-list of species labels: `ANIMALS` in `an.py`, line 37. -/
def ANIMALS : List String := ["dog", "cat", "bird", "cow", "sheep", "horse"]

/-- Seconds between uploads: `COOLDOWN = 5`, line 38. -/
def COOLDOWN : ℚ := 5

/-- One row of `results.pandas().xyxy[0]`: a detection with a class label,
a confidence score and a bounding box in pixel coordinates. -/
structure Detection where
  name : String
  confidence : ℚ
  xmin : ℚ
  ymin : ℚ
  xmax : ℚ
  ymax : ℚ
deriving DecidableEq

/-- Python `int()` truncates toward zero. -/
def pyInt (q : ℚ) : Int := if 0 ≤ q then ⌊q⌋ else ⌈q⌉

/-- A drawing primitive issued on the frame: `cv2.rectangle` or
`cv2.putText` (lines 65-67). -/
inductive DrawCmd where
  | rect (x1 y1 x2 y2 : Int)
  | text (label : String) (confidence : ℚ) (x y : Int)
deriving DecidableEq

/-- The membership test `label in ANIMALS`, line 59. -/
def isAnimal (d : Detection) : Bool := ANIMALS.contains d.name

/-- The two draw calls performed for one qualifying detection
(lines 65-67): the box, then the label text at `(x1, y1 - 10)`. -/
def drawsOf (d : Detection) : List DrawCmd :=
  [DrawCmd.rect (pyInt d.xmin) (pyInt d.ymin) (pyInt d.xmax) (pyInt d.ymax),
   DrawCmd.text d.name d.confidence (pyInt d.xmin) (pyInt d.ymin - 10)]

/-- One pass of the body of the for-loop over detections (lines 57-67).
The accumulator holds the draw commands issued so far and the
`detected` flag. -/
def annotateStep (acc : List DrawCmd × Bool) (d : Detection) : List DrawCmd × Bool :=
  if isAnimal d then (acc.1 ++ drawsOf d, true) else acc

/-- The annotation for-loop (lines 54-67): starting from no draws and
`detected = False`, fold the loop body over the detections in order.
Returns the draw commands issued and the final `detected` flag. -/
def annotate (ds : List Detection) : List DrawCmd × Bool :=
  ds.foldl annotateStep ([], false)

/-- The upload gate of line 70:
`if detected and (time() - last_sent > COOLDOWN)`. -/
def should_upload (detected : Bool) (now last_sent : ℚ) : Bool :=
  detected && decide (now - last_sent > COOLDOWN)

/-- Exceptions that can cross an iteration boundary: `KeyboardInterrupt`
(raised at a blocking call by Ctrl+C) and a `cv2.error` raised by
`cv2.imwrite`. -/
inductive Exn where
  | keyboardInterrupt
  | cv2error
deriving DecidableEq

/-- The environment of one loop iteration: whether Ctrl+C arrives, whether
`cap.read()` succeeds, the wall-clock time, the detections the model
returns for the frame, whether `cv2.imwrite` raises, whether the
`open`/`requests.post` pair raises, and the pending key code
(already masked with `0xFF`). -/
structure IterInput where
  interrupted : Bool
  ret : Bool
  t : ℚ
  detections : List Detection
  imwriteRaises : Bool
  uploadRaises : Bool
  key : Nat
deriving DecidableEq

/-- The key code of the letter q, compared against `cv2.waitKey(1) & 0xFF`
on line 87. -/
def ordQ : Nat := 113

/-- Observable record of one completed loop iteration. -/
structure IterLog where
  t : ℚ
  detected : Bool
  uploadAttempted : Bool
  uploadSucceeded : Bool
  snapshotWritten : Bool
  failLogged : Bool
  last_sent_after : ℚ
deriving DecidableEq

/-- How the `while True` loop ends. -/
inductive LoopExitKind where
  | streamEnd
  | quitKey
  | raised (e : Exn)
  | inputsEnd
deriving DecidableEq

/-- Outcome of one iteration: either the loop halts before the iteration
completes (interrupt, stream end, or an uncaught exception), or the
iteration completes with a log record and a flag telling whether the
quit key ended the loop afterwards. -/
inductive StepOut where
  | halt (k : LoopExitKind)
  | logged (e : IterLog) (quit : Bool)
deriving DecidableEq

/-- One iteration of the `while True` body (lines 42-88).  `cap.read`
fails ⇒ stream-end break.  Then the detections are annotated; if the
gate of line 70 fires, the snapshot is written (`cv2.imwrite`, line 72,
OUTSIDE the inner `try`: if it raises, the exception propagates and the
loop dies), then `open` + `requests.post` run inside
`try ... except Exception` (lines 74-79: a raise is caught and logged),
and then line 81 sets `last_sent = time()` unconditionally.  Finally
`waitKey` may end the loop with the q key. -/
def iterStep (last_sent : ℚ) (i : IterInput) : StepOut :=
  if i.interrupted then .halt (.raised .keyboardInterrupt)
  else if !i.ret then .halt .streamEnd
  else
    let det := (annotate i.detections).2
    if should_upload det i.t last_sent then
      if i.imwriteRaises then .halt (.raised .cv2error)
      else
        .logged ⟨i.t, det, true, !i.uploadRaises, true, i.uploadRaises, i.t⟩
          (i.key % 256 == ordQ)
    else
      .logged ⟨i.t, det, false, false, false, false, last_sent⟩ (i.key % 256 == ordQ)

/-- Result of running the loop: how it ended, the final `last_sent`, and
the log of completed iterations in order. -/
structure LoopResult where
  exit : LoopExitKind
  last_sent : ℚ
  log : List IterLog
deriving DecidableEq

/-- The `while True` loop (lines 42-88), threading `last_sent` through the
iterations.  The input list supplies the environment of each successive
iteration; the loop also ends if the list runs out. -/
def runLoop : List IterInput → ℚ → LoopResult
  | [], ls => ⟨.inputsEnd, ls, []⟩
  | i :: rest, ls =>
    match iterStep ls i with
    | .halt k => ⟨k, ls, []⟩
    | .logged e true => ⟨.quitKey, e.last_sent_after, [e]⟩
    | .logged e false =>
      ⟨(runLoop rest e.last_sent_after).exit, (runLoop rest e.last_sent_after).last_sent,
       e :: (runLoop rest e.last_sent_after).log⟩

/-- What the process does after the `try` block: leave normally, run the
`except KeyboardInterrupt` handler, or re-raise an uncaught exception
(after the `finally` block has run). -/
inductive ProcOutcome where
  | finished
  | caughtInterrupt
  | uncaught (e : Exn)
deriving DecidableEq

/-- The resources guarded by the `finally` block. -/
structure ResState where
  capReleased : Bool
  windowsDestroyed : Bool
deriving DecidableEq

/-- The `finally` block, lines 93-95: `cap.release()` and
`cv2.destroyAllWindows()`. -/
def cleanup (_s : ResState) : ResState := ⟨true, true⟩

/-- Lines 41-95: the loop inside `try ... except KeyboardInterrupt ...
finally`, started with `last_sent = 0` (line 39).  A
`KeyboardInterrupt` leaving the loop is caught; any other exception
propagates; in every case the `finally` block runs on the resource
state before the process ends. -/
def runMain (inputs : List IterInput) : ProcOutcome × ResState × LoopResult :=
  (match (runLoop inputs 0).exit with
    | .raised .keyboardInterrupt => .caughtInterrupt
    | .raised e => .uncaught e
    | _ => .finished,
   cleanup ⟨false, false⟩,
   runLoop inputs 0)

/-- The confidence threshold set on line 15: `model.conf = 0.5`. -/
def modelConf : ℚ := 1/2

/-- Modelled from the spec: the confidence filtering performed inside the
pretrained YOLOv5 model, which is external to this repository —
`an.py` only configures it by setting `model.conf = 0.5` (line 15).
Per the spec, the Detector applies the configured confidence threshold
before returning, so that detections at or below the threshold are
never surfaced (the boundary is fixed as exclusive). -/
def detect (raw : List Detection) : List Detection :=
  raw.filter (fun d => decide (modelConf < d.confidence))

/-! Concrete sample data used by witnesses and counterexamples. -/

/-- A dog detection with confidence 0.9 and box (10,10,50,50). -/
def dogDet : Detection := ⟨"dog", 9/10, 10, 10, 50, 50⟩

/-- A person detection with confidence 0.99: not in the allow-list. -/
def personDet : Detection := ⟨"person", 99/100, 5, 5, 20, 20⟩

/-- An ordinary iteration at time `t` with detections `ds`: camera read
succeeds, nothing raises, no pending key. -/
def mkIn (t : ℚ) (ds : List Detection) : IterInput := ⟨false, true, t, ds, false, false, 0⟩

/-- An iteration whose upload attempt raises inside the inner `try`. -/
def mkInUploadFail (t : ℚ) (ds : List Detection) : IterInput :=
  ⟨false, true, t, ds, false, true, 0⟩

/-- An iteration whose `cv2.imwrite` call raises. -/
def mkInWriteFail (t : ℚ) (ds : List Detection) : IterInput :=
  ⟨false, true, t, ds, true, false, 0⟩

/-- Trace for the cooldown counterexample: qualifying detections at times
100, 104 and 110 with `COOLDOWN = 5`. -/
def c2trace : List IterInput := [mkIn 100 [dogDet], mkIn 104 [dogDet], mkIn 110 [dogDet]]

/-- A run whose first (and only) frame has a qualifying detection at
wall-clock time 3, i.e. within `COOLDOWN` seconds of the epoch. -/
def c3trace : List IterInput := [mkIn 3 [dogDet]]

/-- A quit-key iteration: the pending key is q. -/
def exQuit : List IterInput := [⟨false, true, 1, [], false, false, ordQ⟩]

/-- A stream-end iteration: `cap.read()` returns no frame. -/
def exStream : List IterInput := [⟨false, false, 1, [], false, false, 0⟩]

/-- An interrupted iteration: Ctrl+C arrives. -/
def exInterrupt : List IterInput := [⟨true, true, 1, [], false, false, 0⟩]

/-- A fatal iteration: the gate fires and `cv2.imwrite` raises. -/
def exFatal : List IterInput := [mkInWriteFail 100 [dogDet]]

/-! Helper lemmas about the gate, the iteration step and the loop. -/

theorem should_upload_iff (d : Bool) (now ls : ℚ) :
    should_upload d now ls = true ↔ (d = true ∧ now - ls > COOLDOWN) := by
  cases d <;> simp [should_upload]

theorem should_upload_false_of_not_detected (now ls : ℚ) :
    should_upload false now ls = false := rfl

/-- Full characterization of a completed iteration in terms of its input
and the incoming `last_sent`. -/
theorem iterStep_logged_char (ls : ℚ) (i : IterInput) (e : IterLog) (q : Bool)
    (h : iterStep ls i = .logged e q) :
    e.t = i.t ∧ e.detected = (annotate i.detections).2
      ∧ e.uploadAttempted = should_upload (annotate i.detections).2 i.t ls
      ∧ e.last_sent_after = (if e.uploadAttempted then i.t else ls)
      ∧ e.snapshotWritten = e.uploadAttempted
      ∧ e.uploadSucceeded = (e.uploadAttempted && !i.uploadRaises)
      ∧ e.failLogged = (e.uploadAttempted && i.uploadRaises) := by
  by_cases hint : i.interrupted = true
  · simp [iterStep, hint] at h
  · by_cases hret : i.ret = true
    · by_cases hgate : should_upload (annotate i.detections).2 i.t ls = true
      · by_cases himw : i.imwriteRaises = true
        · simp [iterStep, hint, hret, hgate, himw] at h
        · have hstep : iterStep ls i =
              .logged ⟨i.t, (annotate i.detections).2, true, !i.uploadRaises, true,
                i.uploadRaises, i.t⟩ (i.key % 256 == ordQ) := by
            simp [iterStep, hint, hret, hgate, himw]
          rw [hstep] at h
          injection h with h1 h2
          subst h1
          simp [hgate]
      · have hgf : should_upload (annotate i.detections).2 i.t ls = false := by
          simpa using hgate
        have hstep : iterStep ls i =
            .logged ⟨i.t, (annotate i.detections).2, false, false, false, false, ls⟩
              (i.key % 256 == ordQ) := by
          simp [iterStep, hint, hret, hgf]
        rw [hstep] at h
        injection h with h1 h2
        subst h1
        simp [hgf]
    · simp [iterStep, hint, hret] at h

theorem iterStep_le (ls : ℚ) (i : IterInput) (e : IterLog) (q : Bool)
    (h : iterStep ls i = .logged e q) : ls ≤ e.last_sent_after := by
  obtain ⟨ht, _, hu, hls, _⟩ := iterStep_logged_char ls i e q h
  rw [hls]
  by_cases hup : e.uploadAttempted = true
  · rw [if_pos hup]
    rw [hup] at hu
    obtain ⟨-, hgt⟩ := (should_upload_iff _ _ _).mp hu.symm
    have : COOLDOWN ≥ 0 := by norm_num [COOLDOWN]
    linarith
  · simp [hup]

theorem iterStep_upload_char (ls : ℚ) (i : IterInput) (e : IterLog) (q : Bool)
    (h : iterStep ls i = .logged e q) (hu : e.uploadAttempted = true) :
    e.last_sent_after = e.t ∧ e.t - ls > COOLDOWN ∧ e.detected = true := by
  obtain ⟨ht, hd, hup, hls, _⟩ := iterStep_logged_char ls i e q h
  rw [hu] at hup
  obtain ⟨hdet, hgt⟩ := (should_upload_iff _ _ _).mp hup.symm
  refine ⟨by rw [hls, if_pos hu, ht], by rw [ht]; exact hgt, by rw [hd, hdet]⟩

theorem iterStep_no_upload (ls : ℚ) (i : IterInput) (e : IterLog) (q : Bool)
    (h : iterStep ls i = .logged e q) (hu : e.uploadAttempted = false) :
    e.last_sent_after = ls := by
  obtain ⟨-, -, -, hls, -⟩ := iterStep_logged_char ls i e q h
  rw [hls, hu]
  simp

theorem iterStep_not_detected (ls : ℚ) (i : IterInput) (e : IterLog) (q : Bool)
    (h : iterStep ls i = .logged e q) (hd : e.detected = false) :
    e.uploadAttempted = false ∧ e.last_sent_after = ls := by
  obtain ⟨ht, hdet, hup, hls, -⟩ := iterStep_logged_char ls i e q h
  have hdf : (annotate i.detections).2 = false := by rw [← hdet, hd]
  have hfalse : e.uploadAttempted = false := by
    rw [hup, hdf]
    rfl
  exact ⟨hfalse, by rw [hls, hfalse]; simp⟩

theorem runLoop_nil (ls : ℚ) : runLoop [] ls = ⟨.inputsEnd, ls, []⟩ := rfl

theorem runLoop_cons_halt (i : IterInput) (rest : List IterInput) (ls : ℚ)
    (k : LoopExitKind) (h : iterStep ls i = .halt k) :
    runLoop (i :: rest) ls = ⟨k, ls, []⟩ := by
  rw [runLoop, h]

theorem runLoop_cons_quit (i : IterInput) (rest : List IterInput) (ls : ℚ)
    (e : IterLog) (h : iterStep ls i = .logged e true) :
    runLoop (i :: rest) ls = ⟨.quitKey, e.last_sent_after, [e]⟩ := by
  rw [runLoop, h]

theorem runLoop_cons_cont (i : IterInput) (rest : List IterInput) (ls : ℚ)
    (e : IterLog) (h : iterStep ls i = .logged e false) :
    runLoop (i :: rest) ls =
      ⟨(runLoop rest e.last_sent_after).exit, (runLoop rest e.last_sent_after).last_sent,
       e :: (runLoop rest e.last_sent_after).log⟩ := by
  rw [runLoop, h]

/-- Every iteration that attempts an upload does so strictly more than
`COOLDOWN` seconds after the `last_sent` value the loop started from,
and records that time as the new `last_sent`. -/
theorem runLoop_upload_after (inputs : List IterInput) :
    ∀ (ls : ℚ) (pre post : List IterLog) (e : IterLog),
      (runLoop inputs ls).log = pre ++ e :: post →
      e.uploadAttempted = true →
      e.t - ls > COOLDOWN ∧ e.last_sent_after = e.t := by
  induction inputs with
  | nil =>
    intro ls pre post e hlog hu
    rw [runLoop_nil] at hlog
    simp at hlog
  | cons i rest ih =>
    intro ls pre post e hlog hu
    rcases hstep : iterStep ls i with k | ⟨f, b⟩
    · rw [runLoop_cons_halt i rest ls k hstep] at hlog
      simp at hlog
    · cases b with
      | true =>
        rw [runLoop_cons_quit i rest ls f hstep] at hlog
        cases pre with
        | nil =>
          obtain ⟨hfe, -⟩ : f = e ∧ post = [] := by simpa using hlog
          rw [hfe] at hstep
          obtain ⟨h1, h2, -⟩ := iterStep_upload_char ls i e true hstep hu
          exact ⟨h2, h1⟩
        | cons a pre =>
          simp at hlog
      | false =>
        rw [runLoop_cons_cont i rest ls f hstep] at hlog
        cases pre with
        | nil =>
          obtain ⟨hfe, -⟩ : f = e ∧ (runLoop rest f.last_sent_after).log = post := by
            simpa using hlog
          rw [hfe] at hstep
          obtain ⟨h1, h2, -⟩ := iterStep_upload_char ls i e false hstep hu
          exact ⟨h2, h1⟩
        | cons a pre =>
          obtain ⟨-, htail⟩ : f = a ∧ (runLoop rest f.last_sent_after).log = pre ++ e :: post := by
            simpa using hlog
          obtain ⟨hgt, hset⟩ := ih f.last_sent_after pre post e htail hu
          have hle : ls ≤ f.last_sent_after := iterStep_le ls i f false hstep
          exact ⟨by linarith, hset⟩

/-- If no iteration before `e` saw a qualifying detection, the incoming
`last_sent` at `e` is still the initial one, so a qualifying detection
at `e` more than `COOLDOWN` seconds after it fires the gate. -/
theorem runLoop_first_detect_uploads (inputs : List IterInput) :
    ∀ (ls : ℚ) (pre post : List IterLog) (e : IterLog),
      (runLoop inputs ls).log = pre ++ e :: post →
      (∀ f ∈ pre, f.detected = false) →
      e.detected = true → e.t - ls > COOLDOWN →
      e.uploadAttempted = true := by
  induction inputs with
  | nil =>
    intro ls pre post e hlog hpre hd ht
    rw [runLoop_nil] at hlog
    simp at hlog
  | cons i rest ih =>
    intro ls pre post e hlog hpre hd ht
    rcases hstep : iterStep ls i with k | ⟨f, b⟩
    · rw [runLoop_cons_halt i rest ls k hstep] at hlog
      simp at hlog
    · have hhead : ∀ q, iterStep ls i = .logged e q → e.uploadAttempted = true := by
        intro q hq
        obtain ⟨het, hedet, heup, -⟩ := iterStep_logged_char ls i e q hq
        rw [heup, ← hedet]
        exact (should_upload_iff _ _ _).mpr ⟨hd, het ▸ ht⟩
      cases b with
      | true =>
        rw [runLoop_cons_quit i rest ls f hstep] at hlog
        cases pre with
        | nil =>
          obtain ⟨hfe, -⟩ : f = e ∧ post = [] := by simpa using hlog
          rw [hfe] at hstep
          exact hhead true hstep
        | cons a pre =>
          simp at hlog
      | false =>
        rw [runLoop_cons_cont i rest ls f hstep] at hlog
        cases pre with
        | nil =>
          obtain ⟨hfe, -⟩ : f = e ∧ (runLoop rest f.last_sent_after).log = post := by
            simpa using hlog
          rw [hfe] at hstep
          exact hhead false hstep
        | cons a pre =>
          obtain ⟨hfa, htail⟩ : f = a ∧ (runLoop rest f.last_sent_after).log = pre ++ e :: post := by
            simpa using hlog
          have hfd : f.detected = false := by
            rw [hfa]
            exact hpre a (by simp)
          obtain ⟨-, hfls⟩ := iterStep_not_detected ls i f false hstep hfd
          rw [hfls] at htail
          exact ih ls pre post e htail (fun g hg => hpre g (by simp [hg])) hd ht

/-- The tail of the log after any completed iteration `e` is itself the
log of a run that starts from `e.last_sent_after`. -/
theorem runLoop_log_split (inputs : List IterInput) :
    ∀ (ls : ℚ) (pre tail : List IterLog) (e : IterLog),
      (runLoop inputs ls).log = pre ++ e :: tail →
      ∃ rest : List IterInput, (runLoop rest e.last_sent_after).log = tail := by
  induction inputs with
  | nil =>
    intro ls pre tail e hlog
    rw [runLoop_nil] at hlog
    simp at hlog
  | cons i rest ih =>
    intro ls pre tail e hlog
    rcases hstep : iterStep ls i with k | ⟨f, b⟩
    · rw [runLoop_cons_halt i rest ls k hstep] at hlog
      simp at hlog
    · cases b with
      | true =>
        rw [runLoop_cons_quit i rest ls f hstep] at hlog
        cases pre with
        | nil =>
          obtain ⟨-, htl⟩ : f = e ∧ tail = [] := by simpa using hlog
          refine ⟨[], ?_⟩
          rw [runLoop_nil, htl]
        | cons a pre =>
          simp at hlog
      | false =>
        rw [runLoop_cons_cont i rest ls f hstep] at hlog
        cases pre with
        | nil =>
          obtain ⟨hfe, htail⟩ : f = e ∧ (runLoop rest f.last_sent_after).log = tail := by
            simpa using hlog
          refine ⟨rest, ?_⟩
          rw [← hfe]
          exact htail
        | cons a pre =>
          obtain ⟨-, htail⟩ : f = a ∧ (runLoop rest f.last_sent_after).log = pre ++ e :: tail := by
            simpa using hlog
          exact ih f.last_sent_after pre tail e htail

/-- Along a run, the successive `last_sent` values (starting from the
initial one) form a non-decreasing chain. -/
theorem runLoop_chain (inputs : List IterInput) :
    ∀ ls : ℚ,
      List.Chain' (fun a b => a ≤ b)
        (ls :: (runLoop inputs ls).log.map (fun f => f.last_sent_after)) := by
  induction inputs with
  | nil =>
    intro ls
    rw [runLoop_nil]
    simp
  | cons i rest ih =>
    intro ls
    rcases hstep : iterStep ls i with k | ⟨f, b⟩
    · rw [runLoop_cons_halt i rest ls k hstep]
      simp
    · have hle : ls ≤ f.last_sent_after := iterStep_le ls i f b hstep
      cases b with
      | true =>
        rw [runLoop_cons_quit i rest ls f hstep]
        simp [hle]
      | false =>
        rw [runLoop_cons_cont i rest ls f hstep]
        simp only [List.map_cons]
        exact List.chain'_cons.mpr ⟨hle, ih f.last_sent_after⟩

/-- The annotation fold, from an arbitrary accumulator: it appends the
draw commands of exactly the allow-listed detections, in order, and
ors the flag with whether any detection is allow-listed. -/
theorem annotate_foldl (ds : List Detection) :
    ∀ acc : List DrawCmd × Bool,
      ds.foldl annotateStep acc =
        (acc.1 ++ (ds.filter isAnimal).flatMap drawsOf, acc.2 || ds.any isAnimal) := by
  induction ds with
  | nil =>
    intro acc
    simp
  | cons d ds ih =>
    intro acc
    by_cases h : isAnimal d = true
    · simp [annotateStep, h, ih, List.append_assoc]
    · simp [annotateStep, h, ih]

/-- C1: in every completed loop iteration, the upload branch is entered
iff at least one detection in the frame has a label in the allow-list
(`detected`) AND `now - last_sent` is strictly greater than
`COOLDOWN = 5`; in particular the gate is false at `last_sent = now - 3`
and true at `last_sent = now - 6`. -/
theorem c1_cooldown_gate :
    (∀ (d : Bool) (now ls : ℚ),
        should_upload d now ls = true ↔ (d = true ∧ now - ls > COOLDOWN))
    ∧ (∀ (ls : ℚ) (i : IterInput) (e : IterLog) (q : Bool),
        iterStep ls i = .logged e q →
        e.uploadAttempted = should_upload (annotate i.detections).2 i.t ls)
    ∧ (∀ now : ℚ, should_upload true now (now - 3) = false)
    ∧ (∀ now : ℚ, should_upload true now (now - 6) = true) := by
  refine ⟨should_upload_iff, ?_, ?_, ?_⟩
  · intro ls i e q h
    exact (iterStep_logged_char ls i e q h).2.2.1
  · intro now
    simp only [should_upload, COOLDOWN, Bool.true_and, sub_sub_cancel,
      decide_eq_false_iff_not]
    norm_num
  · intro now
    simp only [should_upload, COOLDOWN, Bool.true_and, sub_sub_cancel,
      decide_eq_true_eq]
    norm_num

/-- Witness for C1: a concrete iteration at time 10 from `last_sent = 0`
with a dog detection attempts the upload, as the gate prescribes. -/
theorem c1_cooldown_gate_witness :
    IterLog.uploadAttempted ⟨10, true, true, true, true, false, 10⟩
      = should_upload (annotate [dogDet]).2 10 0 :=
  c1_cooldown_gate.2.1 0 (mkIn 10 [dogDet]) ⟨10, true, true, true, true, false, 10⟩ false
    (by norm_num [iterStep, mkIn, should_upload, COOLDOWN, annotate, annotateStep,
      isAnimal, dogDet, ANIMALS, ordQ])

/-- C4: the `detected` flag is true iff some detection label is in the
allow-list; the draw commands issued are exactly those of the
allow-listed detections, in detection order, two per detection, with no
deduplication (the filter keeps duplicates); non-allow-listed
detections are neither drawn nor counted. -/
theorem c4_annotator_allowlist :
    (∀ ds : List Detection, (annotate ds).2 = ds.any isAnimal)
    ∧ (∀ ds : List Detection, (annotate ds).1 = (ds.filter isAnimal).flatMap drawsOf)
    ∧ (∀ d : Detection, isAnimal d = ANIMALS.contains d.name) := by
  refine ⟨?_, ?_, fun d => rfl⟩
  · intro ds
    rw [annotate, annotate_foldl]
    simp
  · intro ds
    rw [annotate, annotate_foldl]
    simp

/-- C10: in every completed iteration in which the gate does not fire
(no allow-listed detection, or the cooldown has not elapsed),
`last_sent` is left unchanged and no snapshot is written (and no upload
is attempted). -/
theorem c10_no_upload_frame_condition :
    ∀ (ls : ℚ) (i : IterInput) (e : IterLog) (q : Bool),
      iterStep ls i = .logged e q →
      ((annotate i.detections).2 = false ∨ ¬(i.t - ls > COOLDOWN)) →
      e.last_sent_after = ls ∧ e.snapshotWritten = false ∧ e.uploadAttempted = false := by
  intro ls i e q h hcond
  obtain ⟨ht, hdet, hup, hls, hsnap, -⟩ := iterStep_logged_char ls i e q h
  have hgate : should_upload (annotate i.detections).2 i.t ls = false := by
    rcases hcond with hc | hc
    · rw [hc]
      rfl
    · simp [should_upload, hc]
  have hupf : e.uploadAttempted = false := by rw [hup, hgate]
  refine ⟨?_, ?_, hupf⟩
  · rw [hls, hupf]
    simp
  · rw [hsnap, hupf]

/-- Witness for C10: a frame at time 50 holding only a person detection
(not allow-listed) leaves `last_sent = 0` untouched and writes nothing. -/
theorem c10_no_upload_frame_condition_witness :
    IterLog.last_sent_after ⟨50, false, false, false, false, false, 0⟩ = 0
    ∧ IterLog.snapshotWritten ⟨50, false, false, false, false, false, 0⟩ = false
    ∧ IterLog.uploadAttempted ⟨50, false, false, false, false, false, 0⟩ = false :=
  c10_no_upload_frame_condition 0 (mkIn 50 [personDet])
    ⟨50, false, false, false, false, false, 0⟩ false
    (by
      have hdet : (annotate [personDet]).2 = false := by decide
      simp [iterStep, mkIn, hdet, should_upload_false_of_not_detected, ordQ])
    (Or.inl (by decide))

/-- C5 amended: whenever the upload block is reached, line 81 sets
`last_sent` to the current time — whether the POST succeeded or raised
(the raise is caught on lines 78-79 and only logged). -/
theorem c5_last_sent_advances_even_on_failure :
    ∀ (ls : ℚ) (i : IterInput) (e : IterLog) (q : Bool),
      iterStep ls i = .logged e q → e.uploadAttempted = true →
      e.last_sent_after = i.t ∧ e.uploadSucceeded = !i.uploadRaises
        ∧ e.failLogged = i.uploadRaises := by
  intro ls i e q h hu
  obtain ⟨ht, -, -, hls, -, hsucc, hfail⟩ := iterStep_logged_char ls i e q h
  refine ⟨?_, ?_, ?_⟩
  · rw [hls, if_pos hu]
  · rw [hsucc, hu]
    simp
  · rw [hfail, hu]
    simp

/-- Witness for C5: an iteration at time 100 whose POST raises still ends
with `last_sent = 100`. -/
theorem c5_last_sent_advances_even_on_failure_witness :
    IterLog.last_sent_after ⟨100, true, true, false, true, true, 100⟩
        = (mkInUploadFail 100 [dogDet]).t
    ∧ IterLog.uploadSucceeded ⟨100, true, true, false, true, true, 100⟩
        = !(mkInUploadFail 100 [dogDet]).uploadRaises
    ∧ IterLog.failLogged ⟨100, true, true, false, true, true, 100⟩
        = (mkInUploadFail 100 [dogDet]).uploadRaises :=
  c5_last_sent_advances_even_on_failure 0 (mkInUploadFail 100 [dogDet])
    ⟨100, true, true, false, true, true, 100⟩ false
    (by norm_num [iterStep, mkInUploadFail, should_upload, COOLDOWN, annotate,
      annotateStep, isAnimal, dogDet, ANIMALS, ordQ])
    rfl

/-- Counterexample to C5 as stated: at time 100 from `last_sent = 0`, a
qualifying detection whose upload raises (caught and logged,
`uploadSucceeded = false`) still advances `last_sent` to 100 ≠ 0: the
state update happens on a merely attempted-and-failed upload. -/
theorem c5_counterexample :
    iterStep 0 (mkInUploadFail 100 [dogDet])
      = .logged ⟨100, true, true, false, true, true, 100⟩ false
    ∧ (100:ℚ) ≠ 0 := by
  constructor
  · norm_num [iterStep, mkInUploadFail, should_upload, COOLDOWN, annotate,
      annotateStep, isAnimal, dogDet, ANIMALS, ordQ]
  · norm_num

/-- Evaluation helper: an ordinary iteration whose gate fires. -/
theorem iterStep_eval_pos (ls : ℚ) (i : IterInput)
    (hint : i.interrupted = false) (hret : i.ret = true)
    (hdet : (annotate i.detections).2 = true) (hgt : i.t - ls > COOLDOWN)
    (himw : i.imwriteRaises = false) :
    iterStep ls i = .logged ⟨i.t, true, true, !i.uploadRaises, true, i.uploadRaises, i.t⟩
      (i.key % 256 == ordQ) := by
  have hgate : should_upload true i.t ls = true :=
    (should_upload_iff _ _ _).mpr ⟨rfl, hgt⟩
  simp [iterStep, hint, hret, hdet, hgate, himw]

/-- Evaluation helper: an ordinary iteration whose gate does not fire. -/
theorem iterStep_eval_neg (ls : ℚ) (i : IterInput)
    (hint : i.interrupted = false) (hret : i.ret = true)
    (hgate : should_upload (annotate i.detections).2 i.t ls = false) :
    iterStep ls i = .logged ⟨i.t, (annotate i.detections).2, false, false, false, false, ls⟩
      (i.key % 256 == ordQ) := by
  simp [iterStep, hint, hret, hgate]

/-- Evaluation helper: the gate fires and `cv2.imwrite` raises. -/
theorem iterStep_eval_fatal (ls : ℚ) (i : IterInput)
    (hint : i.interrupted = false) (hret : i.ret = true)
    (hdet : (annotate i.detections).2 = true) (hgt : i.t - ls > COOLDOWN)
    (himw : i.imwriteRaises = true) :
    iterStep ls i = .halt (.raised .cv2error) := by
  have hgate : should_upload true i.t ls = true :=
    (should_upload_iff _ _ _).mpr ⟨rfl, hgt⟩
  simp [iterStep, hint, hret, hdet, hgate, himw]

/-- Concrete evaluation: the dog-detection iteration at time 100 from
`last_sent = 0` completes with an upload attempt. -/
theorem iterStep_dog100 :
    iterStep 0 (mkIn 100 [dogDet])
      = .logged ⟨100, true, true, true, true, false, 100⟩ false := by
  have h := iterStep_eval_pos 0 (mkIn 100 [dogDet]) rfl rfl (by decide)
    (by norm_num [mkIn, COOLDOWN]) rfl
  simpa [mkIn, ordQ] using h

/-- Concrete evaluation: the dog-detection iteration at time 104 from
`last_sent = 100` is inside the cooldown and attempts nothing. -/
theorem iterStep_dog104 :
    iterStep 100 (mkIn 104 [dogDet])
      = .logged ⟨104, true, false, false, false, false, 100⟩ false := by
  have hdet : (annotate [dogDet]).2 = true := by decide
  have hgate : should_upload (annotate (mkIn 104 [dogDet]).detections).2
      (mkIn 104 [dogDet]).t 100 = false := by
    show should_upload (annotate [dogDet]).2 104 100 = false
    rw [hdet]
    simp only [should_upload, Bool.true_and, decide_eq_false_iff_not, COOLDOWN]
    norm_num
  have h := iterStep_eval_neg 100 (mkIn 104 [dogDet]) rfl rfl hgate
  simpa [mkIn, ordQ, hdet] using h

/-- Concrete evaluation: the dog-detection iteration at time 110 from
`last_sent = 100` is past the cooldown and attempts an upload. -/
theorem iterStep_dog110 :
    iterStep 100 (mkIn 110 [dogDet])
      = .logged ⟨110, true, true, true, true, false, 110⟩ false := by
  have h := iterStep_eval_pos 100 (mkIn 110 [dogDet]) rfl rfl (by decide)
    (by norm_num [mkIn, COOLDOWN]) rfl
  simpa [mkIn, ordQ] using h

/-- Concrete evaluation of the full three-frame trace `c2trace`. -/
theorem runLoop_c2trace :
    (runLoop c2trace 0).log =
      [⟨100, true, true, true, true, false, 100⟩,
       ⟨104, true, false, false, false, false, 100⟩,
       ⟨110, true, true, true, true, false, 110⟩] := by
  rw [c2trace, runLoop_cons_cont _ _ _ _ iterStep_dog100]
  simp only []
  rw [runLoop_cons_cont _ _ _ _ iterStep_dog104]
  simp only []
  rw [runLoop_cons_cont _ _ _ _ iterStep_dog110]
  simp only []
  rw [runLoop_nil]

/-- C9: `last_sent` starts at 0 and is monotonically non-decreasing along
every run; every update sets it to the current time of the updating
iteration. -/
theorem c9_last_sent_monotone :
    (∀ inputs : List IterInput,
        List.Chain' (fun a b => a ≤ b)
          ((0:ℚ) :: (runLoop inputs 0).log.map (fun f => f.last_sent_after)))
    ∧ (∀ (inputs : List IterInput) (pre post : List IterLog) (e : IterLog),
        (runLoop inputs 0).log = pre ++ e :: post → e.uploadAttempted = true →
        e.last_sent_after = e.t) := by
  refine ⟨fun inputs => runLoop_chain inputs 0, ?_⟩
  intro inputs pre post e hlog hu
  exact (runLoop_upload_after inputs 0 pre post e hlog hu).2

/-- Witness for C9: in the concrete three-frame trace, the uploading
iteration at time 110 records 110 as the new `last_sent`. -/
theorem c9_last_sent_monotone_witness :
    IterLog.last_sent_after ⟨110, true, true, true, true, false, 110⟩
      = IterLog.t ⟨110, true, true, true, true, false, 110⟩ :=
  c9_last_sent_monotone.2 c2trace
    [⟨100, true, true, true, true, false, 100⟩, ⟨104, true, false, false, false, false, 100⟩]
    [] ⟨110, true, true, true, true, false, 110⟩ (by rw [runLoop_c2trace]; rfl) rfl

/-- C3 amended: in every run (which starts with `last_sent = 0`,
line 39), the first logged frame holding a qualifying detection
attempts an upload, provided its wall-clock time exceeds
`COOLDOWN` (5) seconds past the epoch — true of any realistic
wall-clock time. -/
theorem c3_first_qualifying_uploads :
    ∀ (inputs : List IterInput) (pre post : List IterLog) (e : IterLog),
      (runLoop inputs 0).log = pre ++ e :: post →
      (∀ f ∈ pre, f.detected = false) →
      e.detected = true → e.t > COOLDOWN →
      e.uploadAttempted = true := by
  intro inputs pre post e hlog hpre hd ht
  exact runLoop_first_detect_uploads inputs 0 pre post e hlog hpre hd (by simpa using ht)

/-- Witness for C3: a fresh run whose first frame has a dog detection at
time 100 attempts the upload. -/
theorem c3_first_qualifying_uploads_witness :
    IterLog.uploadAttempted ⟨100, true, true, true, true, false, 100⟩ = true :=
  c3_first_qualifying_uploads [mkIn 100 [dogDet]] [] []
    ⟨100, true, true, true, true, false, 100⟩
    (by
      rw [runLoop_cons_cont _ _ _ _ iterStep_dog100]
      simp [runLoop_nil])
    (fun f hf => absurd hf (List.not_mem_nil f))
    rfl
    (by norm_num [COOLDOWN])

/-- Counterexample to C3 as stated: a run starting within `COOLDOWN`
seconds of the epoch (first qualifying frame at wall-clock time 3)
attempts no upload, because `3 - 0 > 5` fails: initializing
`last_sent` to 0 does not guarantee the first match passes for every
wall-clock start time. -/
theorem c3_counterexample :
    (runLoop c3trace 0).log = [⟨3, true, false, false, false, false, 0⟩]
    ∧ (3:ℚ) - 0 ≤ COOLDOWN := by
  constructor
  · have hdet : (annotate [dogDet]).2 = true := by decide
    have hgate : should_upload (annotate (mkIn 3 [dogDet]).detections).2
        (mkIn 3 [dogDet]).t 0 = false := by
      show should_upload (annotate [dogDet]).2 3 0 = false
      rw [hdet]
      simp only [should_upload, Bool.true_and, decide_eq_false_iff_not, COOLDOWN]
      norm_num
    have h := iterStep_eval_neg 0 (mkIn 3 [dogDet]) rfl rfl hgate
    rw [c3trace, runLoop_cons_cont _ _ _ _ h]
    simp [mkIn, ordQ, hdet, runLoop_nil]
  · norm_num [COOLDOWN]

/-- C2 (amended): along any run, any two iterations that both attempt an
upload are separated by strictly more than `COOLDOWN` seconds — so at
most one upload is attempted in any window of length ≤ `COOLDOWN`;
and a later qualifying detection more than `COOLDOWN` after an
uploading iteration, with no qualifying detection in between, attempts
an upload of its own. -/
theorem c2_cooldown_separation :
    (∀ (inputs : List IterInput) (pre mid post : List IterLog) (e1 e2 : IterLog),
        (runLoop inputs 0).log = pre ++ e1 :: (mid ++ e2 :: post) →
        e1.uploadAttempted = true → e2.uploadAttempted = true →
        e2.t - e1.t > COOLDOWN)
    ∧ (∀ (inputs : List IterInput) (pre mid post : List IterLog) (e1 e2 : IterLog),
        (runLoop inputs 0).log = pre ++ e1 :: (mid ++ e2 :: post) →
        e1.uploadAttempted = true → (∀ f ∈ mid, f.detected = false) →
        e2.detected = true → e2.t - e1.t > COOLDOWN →
        e2.uploadAttempted = true) := by
  constructor
  · intro inputs pre mid post e1 e2 hlog h1 h2
    obtain ⟨rest, hrest⟩ := runLoop_log_split inputs 0 pre (mid ++ e2 :: post) e1 hlog
    obtain ⟨-, hset⟩ := runLoop_upload_after inputs 0 pre (mid ++ e2 :: post) e1 hlog h1
    rw [hset] at hrest
    exact (runLoop_upload_after rest e1.t mid post e2 hrest h2).1
  · intro inputs pre mid post e1 e2 hlog h1 hmid hd ht
    obtain ⟨rest, hrest⟩ := runLoop_log_split inputs 0 pre (mid ++ e2 :: post) e1 hlog
    obtain ⟨-, hset⟩ := runLoop_upload_after inputs 0 pre (mid ++ e2 :: post) e1 hlog h1
    rw [hset] at hrest
    exact runLoop_first_detect_uploads rest e1.t mid post e2 hrest hmid hd ht

/-- Witness for C2: in the concrete trace `c2trace`, the uploads at times
100 and 110 are more than `COOLDOWN` apart. -/
theorem c2_cooldown_separation_witness :
    IterLog.t ⟨110, true, true, true, true, false, 110⟩
      - IterLog.t ⟨100, true, true, true, true, false, 100⟩ > COOLDOWN :=
  c2_cooldown_separation.1 c2trace []
    [⟨104, true, false, false, false, false, 100⟩] []
    ⟨100, true, true, true, true, false, 100⟩
    ⟨110, true, true, true, true, false, 110⟩
    (by rw [runLoop_c2trace]; rfl) rfl rfl

/-- Counterexample to C2 as stated: in `c2trace` the frames at times 104
and 110 both hold qualifying detections and are more than `COOLDOWN`
apart, yet the one at 104 attempts no upload (it is suppressed by the
upload at time 100), so it is not the case that every such pair
triggers two separate upload attempts. -/
theorem c2_counterexample :
    (runLoop c2trace 0).log =
      [⟨100, true, true, true, true, false, 100⟩,
       ⟨104, true, false, false, false, false, 100⟩,
       ⟨110, true, true, true, true, false, 110⟩]
    ∧ (110:ℚ) - 104 > COOLDOWN := by
  exact ⟨runLoop_c2trace, by norm_num [COOLDOWN]⟩

/-- C6 amended: an error raised inside the inner `try` (opening the
snapshot file, or the HTTP POST) is caught and logged and the loop
continues with the next iteration; but an error raised by the snapshot
write itself (`cv2.imwrite`, line 72, outside the `try`) is not
caught: the loop terminates with that exception and no further
iteration runs. -/
theorem c6_upload_errors_caught_write_errors_fatal :
    (∀ (ls : ℚ) (i : IterInput) (rest : List IterInput) (e : IterLog),
        iterStep ls i = .logged e false →
        (runLoop (i :: rest) ls).exit = (runLoop rest e.last_sent_after).exit
        ∧ (runLoop (i :: rest) ls).log = e :: (runLoop rest e.last_sent_after).log
        ∧ (i.uploadRaises = true → e.uploadAttempted = true → e.failLogged = true))
    ∧ (∀ (ls : ℚ) (i : IterInput) (rest : List IterInput),
        i.interrupted = false → i.ret = true → i.imwriteRaises = true →
        should_upload (annotate i.detections).2 i.t ls = true →
        (runLoop (i :: rest) ls).exit = .raised .cv2error
        ∧ (runLoop (i :: rest) ls).log = []) := by
  constructor
  · intro ls i rest e h
    rw [runLoop_cons_cont i rest ls e h]
    refine ⟨rfl, rfl, ?_⟩
    intro hraise hu
    obtain ⟨-, -, -, -, -, -, hfail⟩ := iterStep_logged_char ls i e false h
    rw [hfail, hu, hraise]
    rfl
  · intro ls i rest hint hret himw hgate
    have hstep : iterStep ls i = .halt (.raised .cv2error) := by
      simp [iterStep, hint, hret, hgate, himw]
    rw [runLoop_cons_halt i rest ls _ hstep]
    exact ⟨rfl, rfl⟩

/-- Witness for C6: a concrete iteration whose POST raises is logged as a
failure and the loop goes on to process the next input. -/
theorem c6_upload_errors_caught_write_errors_fatal_witness :
    (runLoop (mkInUploadFail 100 [dogDet] :: [mkIn 101 []]) 0).exit
      = (runLoop [mkIn 101 []]
          (IterLog.last_sent_after ⟨100, true, true, false, true, true, 100⟩)).exit
    ∧ (runLoop (mkInUploadFail 100 [dogDet] :: [mkIn 101 []]) 0).log
      = ⟨100, true, true, false, true, true, 100⟩
          :: (runLoop [mkIn 101 []]
              (IterLog.last_sent_after ⟨100, true, true, false, true, true, 100⟩)).log
    ∧ ((mkInUploadFail 100 [dogDet]).uploadRaises = true
        → IterLog.uploadAttempted ⟨100, true, true, false, true, true, 100⟩ = true
        → IterLog.failLogged ⟨100, true, true, false, true, true, 100⟩ = true) :=
  c6_upload_errors_caught_write_errors_fatal.1 0 (mkInUploadFail 100 [dogDet])
    [mkIn 101 []] ⟨100, true, true, false, true, true, 100⟩
    (by
      have h := iterStep_eval_pos 0 (mkInUploadFail 100 [dogDet]) rfl rfl (by decide)
        (by norm_num [mkInUploadFail, COOLDOWN]) rfl
      simpa [mkInUploadFail, ordQ] using h)

/-- Counterexample to C6 as stated: when `cv2.imwrite` raises on a
qualifying frame at time 100, the exception is not caught — the run
ends with the `cv2.error` and the following input at time 106 is never
processed, so not every I/O error of an upload iteration is non-fatal. -/
theorem c6_counterexample :
    (runLoop [mkInWriteFail 100 [dogDet], mkIn 106 [dogDet]] 0).exit = .raised .cv2error
    ∧ (runLoop [mkInWriteFail 100 [dogDet], mkIn 106 [dogDet]] 0).log = [] := by
  have hstep : iterStep 0 (mkInWriteFail 100 [dogDet]) = .halt (.raised .cv2error) :=
    iterStep_eval_fatal 0 (mkInWriteFail 100 [dogDet]) rfl rfl (by decide)
      (by norm_num [mkInWriteFail, COOLDOWN]) rfl
  rw [runLoop_cons_halt _ _ _ _ hstep]
  exact ⟨rfl, rfl⟩

/-- C7: the `finally` block releases the capture device and destroys the
display windows on every exit path; the four exit paths — quit key,
stream end, Ctrl+C and a fatal in-iteration error — are each realized
by a concrete run, with the interrupt caught and the fatal error
re-raised only after cleanup. -/
theorem c7_cleanup_on_every_exit :
    (∀ inputs : List IterInput, (runMain inputs).2.1 = ⟨true, true⟩)
    ∧ (runMain exQuit).2.2.exit = .quitKey
    ∧ (runMain exQuit).1 = .finished
    ∧ (runMain exStream).2.2.exit = .streamEnd
    ∧ (runMain exStream).1 = .finished
    ∧ (runMain exInterrupt).2.2.exit = .raised .keyboardInterrupt
    ∧ (runMain exInterrupt).1 = .caughtInterrupt
    ∧ (runMain exFatal).2.2.exit = .raised .cv2error
    ∧ (runMain exFatal).1 = .uncaught .cv2error := by
  have hq : runLoop exQuit 0 = ⟨.quitKey, 0, [⟨1, false, false, false, false, false, 0⟩]⟩ := by
    have hstep : iterStep 0 ⟨false, true, 1, [], false, false, ordQ⟩
        = .logged ⟨1, false, false, false, false, false, 0⟩ true := by
      have h := iterStep_eval_neg 0 ⟨false, true, 1, [], false, false, ordQ⟩ rfl rfl rfl
      simpa [annotate, ordQ] using h
    rw [exQuit, runLoop_cons_quit _ _ _ _ hstep]
  have hs : runLoop exStream 0 = ⟨.streamEnd, 0, []⟩ := by
    have hstep : iterStep 0 ⟨false, false, 1, [], false, false, 0⟩ = .halt .streamEnd := rfl
    rw [exStream, runLoop_cons_halt _ _ _ _ hstep]
  have hi : runLoop exInterrupt 0 = ⟨.raised .keyboardInterrupt, 0, []⟩ := by
    have hstep : iterStep 0 ⟨true, true, 1, [], false, false, 0⟩
        = .halt (.raised .keyboardInterrupt) := rfl
    rw [exInterrupt, runLoop_cons_halt _ _ _ _ hstep]
  have hf : runLoop exFatal 0 = ⟨.raised .cv2error, 0, []⟩ := by
    have hstep : iterStep 0 (mkInWriteFail 100 [dogDet]) = .halt (.raised .cv2error) :=
      iterStep_eval_fatal 0 (mkInWriteFail 100 [dogDet]) rfl rfl (by decide)
        (by norm_num [mkInWriteFail, COOLDOWN]) rfl
    rw [exFatal, runLoop_cons_halt _ _ _ _ hstep]
  refine ⟨fun inputs => rfl, ?_, ?_, ?_, ?_, ?_, ?_, ?_, ?_⟩
  · show (runLoop exQuit 0).exit = _
    rw [hq]
  · simp [runMain, hq]
  · show (runLoop exStream 0).exit = _
    rw [hs]
  · simp [runMain, hs]
  · show (runLoop exInterrupt 0).exit = _
    rw [hi]
  · simp [runMain, hi]
  · show (runLoop exFatal 0).exit = _
    rw [hf]
  · simp [runMain, hf]

/-- C8: the Detector never surfaces a detection whose confidence is at or
below the configured threshold 0.5: every surfaced detection has
confidence strictly above it (the boundary is fixed as exclusive), in
particular at or above it. -/
theorem c8_confidence_threshold :
    ∀ (raw : List Detection) (d : Detection),
      d ∈ detect raw → modelConf < d.confidence ∧ modelConf ≤ d.confidence := by
  intro raw d hd
  rw [detect, List.mem_filter] at hd
  have h := of_decide_eq_true hd.2
  exact ⟨h, le_of_lt h⟩

/-- Witness for C8: the dog detection with confidence 0.9 survives the
filter alongside a 0.3-confidence detection, and its confidence is
above the threshold. -/
theorem c8_confidence_threshold_witness :
    modelConf < dogDet.confidence ∧ modelConf ≤ dogDet.confidence :=
  c8_confidence_threshold [dogDet, ⟨"cat", 3/10, 0, 0, 1, 1⟩] dogDet
    (by
      rw [detect]
      refine List.mem_filter.mpr ⟨by simp, ?_⟩
      simp only [decide_eq_true_eq, modelConf, dogDet]
      norm_num)
